import Mathlib

/-
  Verification of the screenrec recording pipeline (src/src-tauri/src/lib.rs
  and src/src-tauri/src/recording.rs), shallowly embedded in Lean 4.

  Pure data and control flow are translated directly from the Rust source;
  external effects (the scap capturer, the file system, ffmpeg, spawned
  threads and child processes) appear as explicit environment parameters and
  an effect record, so that each command becomes a pure transition function
  on the recording state.
-/

namespace ScreenRec

/-- A raw pixel buffer, abstracted to its bytes. -/
abbrev Frame := List Nat

/-! ### Bounded frame channel

Modelled from the spec: the bounded channel between the Capture Loop and the
Encoder Sink (capacity K, non-blocking push that silently discards the newest
frame when full) belongs to the pipeline iterations of this repository that
are not present under src/; lib.rs only contains the dump-frames fallback.
The definitions below follow the spec's words for that channel. -/

structure BoundedChannel where
  capacity : Nat
  buffer : List Frame
deriving DecidableEq

/-- Modelled from the spec: pushing into a channel that still has room
appends the frame at the back (FIFO); pushing into a full channel returns
the channel unchanged, silently discarding the newest frame. The push is a
total function: the producer is never blocked. -/
def BoundedChannel.push (c : BoundedChannel) (f : Frame) : BoundedChannel :=
  if c.buffer.length < c.capacity then
    { c with buffer := c.buffer ++ [f] }
  else
    c

/-- Modelled from the spec: the consumer pops from the front (FIFO). -/
def BoundedChannel.pop (c : BoundedChannel) : Option Frame × BoundedChannel :=
  match c.buffer with
  | [] => (none, c)
  | f :: rest => (some f, { c with buffer := rest })

/-- One producer or consumer action on the channel. -/
inductive ChanOp
  | push (f : Frame)
  | pop
deriving DecidableEq

/-- Run a sequence of channel operations. -/
def BoundedChannel.run (c : BoundedChannel) : List ChanOp → BoundedChannel
  | [] => c
  | ChanOp.push f :: ops => (c.push f).run ops
  | ChanOp.pop :: ops => (c.pop).2.run ops

/-- The empty channel of capacity K. -/
def BoundedChannel.empty (K : Nat) : BoundedChannel := ⟨K, []⟩

theorem push_capacity (c : BoundedChannel) (f : Frame) :
    (c.push f).capacity = c.capacity := by
  unfold BoundedChannel.push
  split <;> rfl

theorem push_length_le (c : BoundedChannel) (f : Frame)
    (h : c.buffer.length ≤ c.capacity) :
    (c.push f).buffer.length ≤ c.capacity := by
  unfold BoundedChannel.push
  split
  · simp only [List.length_append, List.length_singleton]
    omega
  · exact h

theorem pop_capacity (c : BoundedChannel) : (c.pop).2.capacity = c.capacity := by
  unfold BoundedChannel.pop
  cases c.buffer <;> rfl

theorem pop_length_le (c : BoundedChannel) (h : c.buffer.length ≤ c.capacity) :
    (c.pop).2.buffer.length ≤ c.capacity := by
  unfold BoundedChannel.pop
  cases hb : c.buffer with
  | nil => simp [hb]
  | cons a t =>
    simp only
    have : c.buffer.length = t.length + 1 := by rw [hb]; simp
    omega

theorem run_length_le (ops : List ChanOp) :
    ∀ c : BoundedChannel, c.buffer.length ≤ c.capacity →
      ((c.run ops).buffer.length ≤ c.capacity ∧ (c.run ops).capacity = c.capacity) := by
  induction ops with
  | nil => intro c h; exact ⟨h, rfl⟩
  | cons op ops ih =>
    intro c h
    cases op with
    | push f =>
      have hc := push_capacity c f
      have hl := push_length_le c f h
      have := ih (c.push f) (by rw [hc]; exact hl)
      simp only [BoundedChannel.run]
      exact ⟨this.1.trans_eq hc, this.2.trans hc⟩
    | pop =>
      have hc := pop_capacity c
      have hl := pop_length_le c h
      have := ih (c.pop).2 (by rw [hc]; exact hl)
      simp only [BoundedChannel.run]
      exact ⟨this.1.trans_eq hc, this.2.trans hc⟩

/-! ### Event tailer

Embeds the polling loop of the event-capture thread in lib.rs (lines
271-319): the thread keeps a byte offset into the events file; each tick it
reads the file length, and when the file has grown past the offset it seeks
to the offset, reads exactly the delta, appends it to the in-memory record
and advances the offset by the number of bytes read. -/

structure TailerState where
  offset : Nat
  collected : List Nat
deriving DecidableEq

/-- One poll tick of the tailer, given the file content observed at that
tick. Mirrors the body of the while loop: the read happens only when
file_size is strictly greater than last_read_position. -/
def tailPoll (s : TailerState) (file : List Nat) : TailerState :=
  if s.offset < file.length then
    ⟨file.length, s.collected ++ file.drop s.offset⟩
  else
    s

/-- The tailer run over a sequence of observed file contents, starting from
offset 0 with nothing collected (last_read_position = 0). -/
def tailRun (polls : List (List Nat)) : TailerState :=
  polls.foldl tailPoll ⟨0, []⟩

theorem tailPoll_exact (s : TailerState) (prev cur : List Nat)
    (hcol : s.collected = prev) (hoff : s.offset = prev.length)
    (hpre : prev <+: cur) :
    tailPoll s cur = ⟨cur.length, cur⟩ := by
  rcases hpre with ⟨t, rfl⟩
  rcases s with ⟨o, col⟩
  simp only at hcol hoff
  subst hcol
  subst hoff
  unfold tailPoll
  rcases t with _ | ⟨b, t⟩
  · simp
  · simp [List.drop_left]

theorem tailRun_from (polls : List (List Nat)) :
    ∀ prev : List Nat,
      List.Chain' (fun a b => a <+: b) (prev :: polls) →
      polls.foldl tailPoll ⟨prev.length, prev⟩ =
        ⟨(polls.getLastD prev).length, polls.getLastD prev⟩ := by
  induction polls with
  | nil => intro prev _; rfl
  | cons cur rest ih =>
    intro prev hchain
    have h1 : prev <+: cur := List.chain'_cons.1 hchain |>.1
    have h2 : List.Chain' (fun a b => a <+: b) (cur :: rest) :=
      List.chain'_cons.1 hchain |>.2
    simp only [List.foldl_cons, List.getLastD_cons]
    rw [tailPoll_exact ⟨prev.length, prev⟩ prev cur rfl rfl h1]
    exact ih cur h2

/-! ### Throughput probe

Modelled from the spec: the throughput probe (one discarded warm-up frame
acquisition, then N timed acquisitions whose wall-clock latencies are
averaged, with the capture rate clamped to the minimum of the configured
target and the measured achievable rate) belongs to the pipeline iterations
of this repository that are not present under src/; the lib.rs fallback
builds the capturer with the configured fps directly. -/

/-- Modelled from the spec: the first acquisition latency is the discarded
warm-up; the remaining latencies are averaged and the achievable rate is the
inverse of that average. -/
def probeAchievableRate (latencies : List ℚ) : ℚ :=
  let samples := latencies.drop 1
  let avgLatency := samples.sum / (samples.length : ℚ)
  1 / avgLatency

/-- Modelled from the spec: the frame rate used for capture pacing and
passed to the encoder is the configured target clamped to the measured
achievable rate. -/
def captureRate (target : ℚ) (latencies : List ℚ) : ℚ :=
  min target (probeAchievableRate latencies)

/-! ### Recording state machine

Embeds the tauri commands start_recording and stop_recording of lib.rs as
pure transition functions. The RecordingStateWrapper fields become RecState;
the external world (platform support, permission checks, capturer build,
ffmpeg compilation) becomes an environment record; side effects on the
world (threads spawned, child processes spawned, files and directories
touched, stop_capture calls) are gathered in an Effects record. -/

/-- The recognized recording options (lib.rs lines 22-29). -/
structure RecordingOptions where
  fps : Nat
  show_cursor : Bool
  show_highlight : Bool
  save_frames : Bool
  capture_keystrokes : Bool
deriving DecidableEq

/-- The managed RecordingStateWrapper (lib.rs lines 38-44): the capturer
slot, the start instant, the atomic liveness flag, the output directory and
the in-memory keystroke record. -/
structure RecState where
  capturer : Option Unit
  startTime : Option Nat
  isRecording : Bool
  outputDir : Option String
  keystrokes : List String
deriving DecidableEq

/-- Externally visible side effects of one command invocation. -/
structure Effects where
  threadsSpawned : Nat
  processesSpawned : Nat
  captureStopped : Bool
  filesWritten : List String
  dirsCreated : List String
deriving DecidableEq

/-- The effect record of a call that touched nothing. -/
def noEffects : Effects := ⟨0, 0, false, [], []⟩

/-- Outcomes of the external calls start_recording makes: scap platform
support, permission state, the result of requesting permission, the result
of Capturer::build, the session directory derived from the timestamp, and
the current instant. -/
structure StartEnv where
  isSupported : Bool
  hasPermission : Bool
  permissionGranted : Bool
  buildOk : Bool
  buildErr : String
  sessionDir : String
  now : Nat
deriving DecidableEq

/-- start_recording (lib.rs lines 46-346). Guard order follows the source:
already-recording check, platform support, permission (with one
request_permission attempt), directory creation and output_dir assignment,
Capturer::build, then state updates and the optional frame-saving and
event-capture thread spawns (the event thread later spawns the helper
process). -/
def start_recording (env : StartEnv) (opts : RecordingOptions) (s : RecState) :
    Except String Unit × RecState × Effects :=
  if s.capturer.isSome then
    (Except.error "Recording is already in progress", s, noEffects)
  else if !env.isSupported then
    (Except.error "Platform not supported", s, noEffects)
  else if !env.hasPermission && !env.permissionGranted then
    (Except.error "Permission denied", s, noEffects)
  else
    let s1 : RecState := { s with outputDir := some env.sessionDir }
    let fx1 : Effects := { noEffects with dirsCreated := ["recordings", env.sessionDir] }
    if !env.buildOk then
      (Except.error ("Failed to build capturer: " ++ env.buildErr), s1, fx1)
    else
      let s2 : RecState :=
        { s1 with
          capturer := some ()
          isRecording := true
          startTime := some env.now
          keystrokes := if opts.capture_keystrokes then [] else s.keystrokes }
      let fx2 : Effects :=
        { fx1 with
          threadsSpawned :=
            (if opts.save_frames then 1 else 0) +
            (if opts.capture_keystrokes then 1 else 0)
          processesSpawned := if opts.capture_keystrokes then 1 else 0 }
      (Except.ok (), s2, fx2)

/-- Outcomes of the external calls stop_recording makes: whether
compile_frames_to_video succeeded, its error text, and how many ffmpeg
processes it spawned along the way. -/
structure StopEnv where
  compileOk : Bool
  compileErr : String
  ffmpegSpawned : Nat
deriving DecidableEq

/-- stop_recording (lib.rs lines 348-413). When a capturer is present it is
stopped and the state cleared first; then, if an output directory is set,
the keystroke record is written out (when non-empty) and frame compilation
is attempted — on success the video path is returned, on failure the
session directory path is returned (the error is only logged). With no
capturer the call fails with no side effect. -/
def stop_recording (env : StopEnv) (s : RecState) :
    Except String String × RecState × Effects :=
  match s.capturer with
  | none => (Except.error "No recording in progress", s, noEffects)
  | some _ =>
    let s1 : RecState := { s with capturer := none, isRecording := false, startTime := none }
    match s.outputDir with
    | none => (Except.ok "", s1, { noEffects with captureStopped := true })
    | some dir =>
      let fx : Effects :=
        { noEffects with
          captureStopped := true
          filesWritten := if s.keystrokes.isEmpty then [] else [dir ++ "/events.txt"]
          processesSpawned := env.ffmpegSpawned }
      if env.compileOk then
        (Except.ok (dir ++ "/output.mp4"), s1, fx)
      else
        (Except.ok dir, s1, fx)

/-! ### Capture loop (recording.rs record_screen)

Embeds the capture loop of recording.rs (lines 190-207): each iteration
first loads the shared liveness flag; if it is cleared the loop exits at
once; otherwise it attempts one screen capture, incrementing frame_count
exactly when the capture succeeded, and sleeps out the remainder of the
frame interval. A schedule lists, per potential iteration, the flag value
that load would observe and whether the capture would succeed. -/

structure LoopStep where
  flagObserved : Bool
  captureOk : Bool
deriving DecidableEq

/-- Number of frames produced by record_screen run against a schedule. -/
def record_screen_run : List LoopStep → Nat
  | [] => 0
  | step :: rest =>
    if step.flagObserved then
      (if step.captureOk then 1 else 0) + record_screen_run rest
    else
      0

/-! ### Frame-saving loop (lib.rs lines 139-229)

Embeds the per-iteration outcome of the frame-saving thread's body: the
capture may fail, the frame type may be unsupported, File::create may fail,
write_all may fail (the file exists but is not fully written), or the write
may complete — and only in that last case is frame_count incremented. -/

inductive FrameOutcome
  | captureFail
  | unsupportedType
  | createFail
  | writeFail
  | writeOk
deriving DecidableEq

/-- The frame-saving thread's file-naming state: the counter and the
indices of frame files whose bytes were fully written, plus indices of
files created whose write then failed (left partially written, to be
overwritten by the next successful frame at the same index). -/
structure SaveState where
  frame_count : Nat
  fullyWritten : List Nat
  incompleteFiles : List Nat
deriving DecidableEq

/-- One iteration of the frame-saving loop (lib.rs lines 156-215). -/
def saveStep (s : SaveState) (o : FrameOutcome) : SaveState :=
  match o with
  | FrameOutcome.writeOk =>
    ⟨s.frame_count + 1, s.fullyWritten ++ [s.frame_count], s.incompleteFiles⟩
  | FrameOutcome.writeFail =>
    { s with incompleteFiles := s.incompleteFiles ++ [s.frame_count] }
  | _ => s

/-- The frame-saving loop run from a fresh session (frame_count = 0, no
files yet). -/
def saveRun (outcomes : List FrameOutcome) : SaveState :=
  outcomes.foldl saveStep ⟨0, [], []⟩

/-! ### Concrete fixtures used by witnesses and counterexamples -/

/-- An environment in which every external start-time call succeeds. -/
def envOkFx : StartEnv := ⟨true, true, true, true, "", "/root/recordings/20250101_000000", 7⟩

/-- An environment in which the platform is unsupported (and everything
else fails as well). -/
def envBadFx : StartEnv := ⟨false, false, false, false, "boom", "/root/recordings/20250101_000000", 7⟩

/-- A typical option set. -/
def optsFx : RecordingOptions := ⟨30, true, false, true, true⟩

/-- A live recording state. -/
def liveFx : RecState := ⟨some (), some 0, true, some "/root/recordings/20250101_000000", []⟩

/-- The idle state. -/
def idleFx : RecState := ⟨none, none, false, none, []⟩

/-- A stop-time environment in which ffmpeg compilation failed. -/
def stopEnvFailFx : StopEnv := ⟨false, "ffmpeg exited with failure", 2⟩

/-! ### Claim theorems -/

/-- Claim C5: a second start request while a session is live returns the
AlreadyRecording error ("Recording is already in progress") and leaves the
existing session entirely unchanged, with no thread or process spawned,
signalled, or stopped. -/
theorem start_while_recording_unchanged (env : StartEnv) (opts : RecordingOptions)
    (s : RecState) (h : s.capturer.isSome = true) :
    start_recording env opts s =
      (Except.error "Recording is already in progress", s, noEffects) := by
  unfold start_recording
  simp [h]

theorem start_while_recording_unchanged_witness :
    liveFx.capturer.isSome = true ∧
    start_recording envOkFx optsFx liveFx =
      (Except.error "Recording is already in progress", liveFx, noEffects) :=
  ⟨rfl, start_while_recording_unchanged envOkFx optsFx liveFx rfl⟩

/-- Claim C6: a stop request while no session is live returns the
NotRecording error ("No recording in progress"), leaves the state unchanged
(no Idle-to-Stopping transition exists) and performs no process spawning
and no file I/O. -/
theorem stop_while_idle_unchanged (env : StopEnv) (s : RecState)
    (h : s.capturer = none) :
    stop_recording env s = (Except.error "No recording in progress", s, noEffects) := by
  unfold stop_recording
  rw [h]

theorem stop_while_idle_unchanged_witness :
    idleFx.capturer = none ∧
    stop_recording stopEnvFailFx idleFx =
      (Except.error "No recording in progress", idleFx, noEffects) :=
  ⟨rfl, stop_while_idle_unchanged stopEnvFailFx idleFx rfl⟩

/-- Claim C7: every start request that fails with a capability error
(unsupported platform, permission denied, or capturer build failure) is
surfaced to the caller as an error with zero threads and zero child
processes spawned; the single evaluation of the environment also encodes
that the request is not retried. -/
theorem capability_error_before_spawn (env : StartEnv) (opts : RecordingOptions)
    (s : RecState) (h : s.capturer = none)
    (hcap : env.isSupported = false ∨
      (env.hasPermission = false ∧ env.permissionGranted = false) ∨
      env.buildOk = false) :
    (∃ e, (start_recording env opts s).1 = Except.error e) ∧
    (start_recording env opts s).2.2.threadsSpawned = 0 ∧
    (start_recording env opts s).2.2.processesSpawned = 0 := by
  cases hsup : env.isSupported <;> cases hperm : env.hasPermission <;>
    cases hgrant : env.permissionGranted <;> cases hbuild : env.buildOk <;>
    simp_all [start_recording, noEffects, h]

theorem capability_error_before_spawn_witness :
    (idleFx.capturer = none ∧ envBadFx.isSupported = false) ∧
    ((∃ e, (start_recording envBadFx optsFx idleFx).1 = Except.error e) ∧
     (start_recording envBadFx optsFx idleFx).2.2.threadsSpawned = 0 ∧
     (start_recording envBadFx optsFx idleFx).2.2.processesSpawned = 0) :=
  ⟨⟨rfl, rfl⟩, capability_error_before_spawn envBadFx optsFx idleFx rfl (Or.inl rfl)⟩

/-- Claim C10: in the frame-saving loop the index counter is incremented
only when a frame's bytes were fully written, so at every instant the fully
written frame files have exactly the contiguous indices 0 through
frame_count - 1; failed captures, failed file creations and failed writes
never consume an index. -/
theorem frame_indices_contiguous (outcomes : List FrameOutcome) :
    (saveRun outcomes).fullyWritten = List.range (saveRun outcomes).frame_count := by
  have key : ∀ (outs : List FrameOutcome) (s : SaveState),
      s.fullyWritten = List.range s.frame_count →
      (outs.foldl saveStep s).fullyWritten =
        List.range (outs.foldl saveStep s).frame_count := by
    intro outs
    induction outs with
    | nil => intro s hs; exact hs
    | cons o rest ih =>
      intro s hs
      simp only [List.foldl_cons]
      apply ih
      cases o <;> simp [saveStep, hs, List.range_succ]
  exact key outcomes ⟨0, [], []⟩ (by simp)

/-- Claim C2: for every K at least 1, the bounded channel between the
capture loop and the encoder sink never holds more than K frames at any
instant, and a push into a full channel discards the newest frame silently,
leaving the channel unchanged, without ever blocking the producer (the push
is a total function that returns at once even when the consumer never
drains). -/
theorem bounded_channel_capacity_drop (K : Nat) (ops : List ChanOp)
    (c : BoundedChannel) (f : Frame)
    (_hK : 1 ≤ K) (hcap : c.capacity = K) (hfull : c.buffer.length = K) :
    ((BoundedChannel.empty K).run ops).buffer.length ≤ K ∧
    c.push f = c := by
  constructor
  · exact (run_length_le ops (BoundedChannel.empty K) (by simp [BoundedChannel.empty])).1
  · unfold BoundedChannel.push
    rw [hfull, hcap]
    simp

theorem bounded_channel_capacity_drop_witness :
    (1 ≤ 2 ∧ (⟨2, [[0], [1]]⟩ : BoundedChannel).capacity = 2 ∧
      (⟨2, [[0], [1]]⟩ : BoundedChannel).buffer.length = 2) ∧
    (((BoundedChannel.empty 2).run
        [ChanOp.push [0], ChanOp.push [1], ChanOp.push [2], ChanOp.pop,
         ChanOp.push [3], ChanOp.push [4]]).buffer.length ≤ 2 ∧
      BoundedChannel.push ⟨2, [[0], [1]]⟩ [5] = ⟨2, [[0], [1]]⟩) :=
  ⟨⟨by decide, rfl, rfl⟩,
    bounded_channel_capacity_drop 2
      [ChanOp.push [0], ChanOp.push [1], ChanOp.push [2], ChanOp.pop,
       ChanOp.push [3], ChanOp.push [4]]
      ⟨2, [[0], [1]]⟩ [5] (by decide) rfl rfl⟩

/-- Claim C3: before steady-state capture the start request performs a
throughput probe — the warm-up acquisition is discarded (its latency does
not influence the result), the N sampled latencies are averaged and
inverted — and the frame rate actually used for pacing and the encoder
equals the minimum of the configured target rate and the measured
achievable rate (hence is at most each of them). -/
theorem throughput_probe_min_clamp (target w w' : ℚ) (samples : List ℚ) :
    captureRate target (w :: samples) = captureRate target (w' :: samples) ∧
    captureRate target (w :: samples) =
      min target (probeAchievableRate (w :: samples)) ∧
    captureRate target (w :: samples) ≤ target ∧
    captureRate target (w :: samples) ≤ probeAchievableRate (w :: samples) :=
  ⟨rfl, rfl, min_le_left _ _, min_le_right _ _⟩

/-- Claim C4: for every log file that grows monotonically across polls, the
event tailer — tracking a byte offset and reading only the delta past it
when the file has grown — consumes each byte exactly once: the
concatenation of all deltas read equals the content observed at the last
poll, with no duplication and no gaps, for any interleaving of polls with
writer appends (each poll observes some extension of the previous
observation, possibly equal to it). -/
theorem event_tailer_reads_each_byte_once (polls : List (List Nat))
    (hgrow : List.Chain' (fun a b => a <+: b) polls) :
    (tailRun polls).collected = polls.getLastD [] ∧
    (tailRun polls).offset = (polls.getLastD []).length := by
  cases polls with
  | nil => exact ⟨rfl, rfl⟩
  | cons p rest =>
    unfold tailRun
    simp only [List.foldl_cons, List.getLastD_cons]
    rw [tailPoll_exact ⟨0, []⟩ [] p rfl rfl ⟨p, by simp⟩]
    rw [tailRun_from rest p hgrow]
    exact ⟨rfl, rfl⟩

theorem event_tailer_reads_each_byte_once_witness :
    List.Chain' (fun a b => a <+: b) [[1, 2], [1, 2], [1, 2, 3], [1, 2, 3, 4, 5]] ∧
    ((tailRun [[1, 2], [1, 2], [1, 2, 3], [1, 2, 3, 4, 5]]).collected =
        ([[1, 2], [1, 2], [1, 2, 3], [1, 2, 3, 4, 5]] : List (List Nat)).getLastD [] ∧
      (tailRun [[1, 2], [1, 2], [1, 2, 3], [1, 2, 3, 4, 5]]).offset =
        (([[1, 2], [1, 2], [1, 2, 3], [1, 2, 3, 4, 5]] : List (List Nat)).getLastD []).length) :=
  ⟨by refine List.chain'_cons.2 ⟨⟨[], rfl⟩, ?_⟩
      refine List.chain'_cons.2 ⟨⟨[3], rfl⟩, ?_⟩
      exact List.chain'_cons.2 ⟨⟨[4, 5], rfl⟩, List.chain'_singleton _⟩,
    event_tailer_reads_each_byte_once [[1, 2], [1, 2], [1, 2, 3], [1, 2, 3, 4, 5]]
      (by refine List.chain'_cons.2 ⟨⟨[], rfl⟩, ?_⟩
          refine List.chain'_cons.2 ⟨⟨[3], rfl⟩, ?_⟩
          exact List.chain'_cons.2 ⟨⟨[4, 5], rfl⟩, List.chain'_singleton _⟩)⟩

/-- Claim C8: the capture loop checks the shared liveness flag at each
iteration; the frames it produces are exactly those of the iterations
before the first cleared-flag observation (so an observation of the cleared
flag ends the loop, no frame is produced at or after it, and at most the
iteration already in flight completes). -/
theorem capture_loop_cooperative_stop (steps pre post : List LoopStep) (b : Bool)
    (hpre : ∀ st ∈ pre, st.flagObserved = true) :
    record_screen_run steps =
      record_screen_run (steps.takeWhile (fun st => st.flagObserved)) ∧
    record_screen_run (pre ++ ⟨false, b⟩ :: post) = record_screen_run pre := by
  constructor
  · induction steps with
    | nil => rfl
    | cons st rest ih =>
      by_cases hf : st.flagObserved
      · simp [record_screen_run, List.takeWhile_cons, hf, ih]
      · simp [record_screen_run, List.takeWhile_cons, hf]
  · induction pre with
    | nil => rfl
    | cons st rest ih =>
      have hst : st.flagObserved = true := hpre st (by simp)
      have hrest : ∀ x ∈ rest, x.flagObserved = true :=
        fun x hx => hpre x (by simp [hx])
      simp [record_screen_run, hst, ih hrest]

theorem capture_loop_cooperative_stop_witness :
    (∀ st ∈ ([⟨true, true⟩, ⟨true, false⟩] : List LoopStep), st.flagObserved = true) ∧
    (record_screen_run [⟨true, true⟩, ⟨false, true⟩, ⟨true, true⟩] =
      record_screen_run
        (([⟨true, true⟩, ⟨false, true⟩, ⟨true, true⟩] : List LoopStep).takeWhile
          (fun st => st.flagObserved)) ∧
     record_screen_run
        (([⟨true, true⟩, ⟨true, false⟩] : List LoopStep) ++ ⟨false, true⟩ :: [⟨true, true⟩]) =
      record_screen_run [⟨true, true⟩, ⟨true, false⟩]) :=
  ⟨by decide,
    capture_loop_cooperative_stop [⟨true, true⟩, ⟨false, true⟩, ⟨true, true⟩]
      [⟨true, true⟩, ⟨true, false⟩] [⟨true, true⟩] true (by decide)⟩

theorem stop_state_eq (env : StopEnv) (s : RecState) (h : s.capturer.isSome = true) :
    (stop_recording env s).2.1 =
      { s with capturer := none, isRecording := false, startTime := none } := by
  rcases s with ⟨cap, st, ir, od, ks⟩
  cases cap with
  | none => simp at h
  | some u =>
    unfold stop_recording
    cases od with
    | none => rfl
    | some dir =>
      by_cases hc : env.compileOk <;> simp [hc]

/-- Claim C9: for every stop request on a live session, the recording state
is cleared (capturer set to none, is_recording set to false, start_time set
to none) before artifact compilation is attempted and stays cleared whatever
the compilation outcome, so the state machine is back in Idle and a
subsequent start request (in a capable environment) succeeds even when the
stop's video compilation failed. -/
theorem stop_clears_state_before_compile (env : StopEnv) (s : RecState)
    (senv : StartEnv) (opts : RecordingOptions)
    (h : s.capturer.isSome = true)
    (hsup : senv.isSupported = true)
    (hperm : senv.hasPermission = true ∨ senv.permissionGranted = true)
    (hbuild : senv.buildOk = true) :
    (stop_recording env s).2.1.capturer = none ∧
    (stop_recording env s).2.1.isRecording = false ∧
    (stop_recording env s).2.1.startTime = none ∧
    (start_recording senv opts (stop_recording env s).2.1).1 = Except.ok () := by
  rw [stop_state_eq env s h]
  refine ⟨rfl, rfl, rfl, ?_⟩
  unfold start_recording
  rcases hperm with hp | hp <;>
    simp [hsup, hp, hbuild]

theorem stop_clears_state_before_compile_witness :
    (liveFx.capturer.isSome = true ∧ envOkFx.isSupported = true ∧
      (envOkFx.hasPermission = true ∨ envOkFx.permissionGranted = true) ∧
      envOkFx.buildOk = true) ∧
    ((stop_recording stopEnvFailFx liveFx).2.1.capturer = none ∧
     (stop_recording stopEnvFailFx liveFx).2.1.isRecording = false ∧
     (stop_recording stopEnvFailFx liveFx).2.1.startTime = none ∧
     (start_recording envOkFx optsFx (stop_recording stopEnvFailFx liveFx).2.1).1 =
       Except.ok ()) :=
  ⟨⟨rfl, rfl, Or.inl rfl, rfl⟩,
    stop_clears_state_before_compile stopEnvFailFx liveFx envOkFx optsFx
      rfl rfl (Or.inl rfl) rfl⟩

/-- Claim C1 (counterexample): on a live session whose video compilation
fails (so the declared output file output.mp4 was not produced), the stop
request still returns Ok with the session directory path — it does not fail
with OutputValidationFailed as the claim states; lib.rs lines 398-403 log
the compilation error and return the directory path instead. -/
theorem stop_swallows_compile_failure_cex :
    (stop_recording stopEnvFailFx liveFx).1 =
      Except.ok "/root/recordings/20250101_000000" ∧
    ∀ e, (stop_recording stopEnvFailFx liveFx).1 ≠ Except.error e := by
  refine ⟨rfl, ?_⟩
  intro e hcontra
  rw [show (stop_recording stopEnvFailFx liveFx).1 =
      Except.ok "/root/recordings/20250101_000000" from rfl] at hcontra
  exact Except.noConfusion hcontra

/-- Claim C1 (amended): for every stop request on a live session, after
shutdown the stop operation never fails: it returns the output video path
when frame compilation succeeds, the session directory path when
compilation fails (the failure is only logged), and the empty string when
no output directory is set; no output-artifact validation is performed. -/
theorem stop_live_always_ok (env : StopEnv) (s : RecState)
    (h : s.capturer.isSome = true) :
    (∃ v, (stop_recording env s).1 = Except.ok v) ∧
    (∀ dir, s.outputDir = some dir → env.compileOk = true →
      (stop_recording env s).1 = Except.ok (dir ++ "/output.mp4")) ∧
    (∀ dir, s.outputDir = some dir → env.compileOk = false →
      (stop_recording env s).1 = Except.ok dir) ∧
    (s.outputDir = none → (stop_recording env s).1 = Except.ok "") := by
  rcases s with ⟨cap, st, ir, od, ks⟩
  cases cap with
  | none => simp at h
  | some u =>
    unfold stop_recording
    cases od with
    | none => exact ⟨⟨"", rfl⟩, by simp, by simp, fun _ => rfl⟩
    | some dir =>
      by_cases hc : env.compileOk <;> simp [hc]

theorem stop_live_always_ok_witness :
    liveFx.capturer.isSome = true ∧
    ((∃ v, (stop_recording stopEnvFailFx liveFx).1 = Except.ok v) ∧
     (∀ dir, liveFx.outputDir = some dir → stopEnvFailFx.compileOk = true →
       (stop_recording stopEnvFailFx liveFx).1 = Except.ok (dir ++ "/output.mp4")) ∧
     (∀ dir, liveFx.outputDir = some dir → stopEnvFailFx.compileOk = false →
       (stop_recording stopEnvFailFx liveFx).1 = Except.ok dir) ∧
     (liveFx.outputDir = none → (stop_recording stopEnvFailFx liveFx).1 = Except.ok "")) :=
  ⟨rfl, stop_live_always_ok stopEnvFailFx liveFx rfl⟩

end ScreenRec
